import Mathlib

/-!
Verification of the ISO metric thread-engagement calculation engine.

The engine is embedded shallowly over exact rationals (`ℚ`): every Python
float expression is modelled as the corresponding exact rational
expression, and a Python function that can raise (`ValueError`,
`ZeroDivisionError`) is modelled as an `Option`-returning function where
`none` stands for "an exception is raised".  Display-only string fields
(thread designation text, message strings, check report lines) are
modelled by enumerations or omitted where noted.
-/

namespace ThreadEngagement

/-- Thread geometry record (`MetricThread` dataclass).  The `designation`
display string is presentation-only and omitted; `D` is the nominal major
diameter (mm), `p` the pitch (mm) and `At` the tensile stress area (mm²). -/
structure MetricThread where
  D : ℚ
  p : ℚ
  At : ℚ
  deriving DecidableEq

/-- `tensile_stress_area`: `At = 0.7854 * (D - 0.9382 * p) ** 2`. -/
def tensile_stress_area (D p : ℚ) : ℚ :=
  (7854 / 10000) * (D - (9382 / 10000) * p) ^ 2

/-- Internal thread shear area factor per mm of engagement, the expression
`0.5625 * p * (D - 0.54127 * p)` computed inline by both engagement
solvers (and by `calculate_stress_analysis`). -/
def As_factor (th : MetricThread) : ℚ :=
  (5625 / 10000) * th.p * (th.D - (54127 / 100000) * th.p)

/-- `bolt_tensile_capacity`: `At * (sigma_y_bolt / n_bolt)`.
The Python division raises `ZeroDivisionError` when `n_bolt = 0`; callers
below that can reach that case guard it explicitly. -/
def bolt_tensile_capacity (th : MetricThread) (sigma_y_bolt n_bolt : ℚ) : ℚ :=
  th.At * (sigma_y_bolt / n_bolt)

/-- `required_engagement_for_design_load`: allowable shear
`tau_allow = k_shear * sigma_y_hole / n_hole`, shear area factor
`As_factor`, and `L_e = F / (As_factor * tau_allow)`, raising
(`none`) when `As_factor <= 0 or tau_allow <= 0`.  (When `n_hole = 0`
Python instead raises `ZeroDivisionError`; in `ℚ` the division yields 0,
so `tau_allow ≤ 0` holds and the model also returns `none`.) -/
def required_engagement_for_design_load (th : MetricThread)
    (F_design sigma_y_hole n_hole k_shear : ℚ) : Option ℚ :=
  let tau_allow := k_shear * sigma_y_hole / n_hole
  if As_factor th ≤ 0 ∨ tau_allow ≤ 0 then none
  else some (F_design / (As_factor th * tau_allow))

/-- `required_engagement_for_equal_strength`: computes the bolt allowable
capacity, then the same shear-area/allowable-shear quantities, and
`L_e = F_bolt_allow / (As_factor * tau_allow)`; returns `(L_e, F_bolt_allow)`.
`none` models the `ValueError` on non-positive `As_factor`/`tau_allow` and
also the `ZeroDivisionError` raised by `bolt_tensile_capacity` when
`n_bolt = 0`. -/
def required_engagement_for_equal_strength (th : MetricThread)
    (sigma_y_bolt sigma_y_hole n_bolt n_hole k_shear : ℚ) : Option (ℚ × ℚ) :=
  if n_bolt = 0 then none
  else
    let F_bolt_allow := bolt_tensile_capacity th sigma_y_bolt n_bolt
    let tau_allow := k_shear * sigma_y_hole / n_hole
    if As_factor th ≤ 0 ∨ tau_allow ≤ 0 then none
    else some (F_bolt_allow / (As_factor th * tau_allow), F_bolt_allow)

/-! ### Thread designation parser (`parse_metric_thread`)

The parser works on the character list of the input.  `float(...)` is
modelled by `parseDecimal`, a parser for plain decimal literals (optional
sign, digits, at most one dot, at least one digit) — the forms produced by
formatting a diameter/pitch value; the exotic `float()` forms
(exponents, `inf`, `nan`, underscores) are outside the modelled domain. -/

/-- ASCII digit test (`'0' ≤ c ≤ '9'`), stated on code points. -/
def isDigitChar (c : Char) : Bool :=
  48 ≤ c.toNat && c.toNat ≤ 57

/-- Python `str.upper` on one character (ASCII range; the inputs of
interest contain only ASCII). -/
def pyUpperChar (c : Char) : Char :=
  if 97 ≤ c.toNat ∧ c.toNat ≤ 122 then Char.ofNat (c.toNat - 32) else c

/-- Python whitespace as stripped by `str.strip` (space, tab, LF, VT, FF, CR). -/
def isPySpace (c : Char) : Bool :=
  c.toNat = 32 || c.toNat = 9 || c.toNat = 10 || c.toNat = 11 ||
  c.toNat = 12 || c.toNat = 13

/-- Python `str.strip`. -/
def pyStrip (l : List Char) : List Char :=
  ((l.dropWhile isPySpace).reverse.dropWhile isPySpace).reverse

/-- `s.strip().upper().replace(' ', '')`: strip surrounding whitespace,
uppercase, remove every space (code point 32). -/
def preprocess (l : List Char) : List Char :=
  ((pyStrip l).map pyUpperChar).filter (fun c => c.toNat != 32)

/-- Value of a digit string, most significant first. -/
def natOfDigits (l : List Char) : ℕ :=
  l.foldl (fun a c => 10 * a + (c.toNat - 48)) 0

/-- Unsigned decimal literal: `digits`, `digits.digits`, `digits.` or
`.digits` (at least one digit overall).  Splits the input at the digit
prefix and inspects the remainder. -/
def parseUnsignedCore (ip rest : List Char) : Option ℚ :=
  if rest = [] then
    if ip = [] then none else some ((natOfDigits ip : ℚ))
  else if rest.head? = some '.' then
    let frac := rest.tail
    if frac.all isDigitChar && (!ip.isEmpty || !frac.isEmpty) then
      some ((natOfDigits ip : ℚ) + (natOfDigits frac : ℚ) / 10 ^ frac.length)
    else none
  else none

def parseUnsigned (l : List Char) : Option ℚ :=
  parseUnsignedCore (l.takeWhile isDigitChar) (l.dropWhile isDigitChar)

/-- Python `float` on a plain decimal literal with optional leading sign. -/
def parseDecimal (l : List Char) : Option ℚ :=
  match l with
  | [] => parseUnsigned []
  | c :: r =>
    if c = '-' then (parseUnsigned r).map (fun q => -q)
    else if c = '+' then parseUnsigned r
    else parseUnsigned (c :: r)

/-- The characters a successfully parsed decimal literal can contain. -/
def numeralChar (c : Char) : Bool :=
  isDigitChar c || c = '.' || c = '+' || c = '-'

/-- `COARSE_PITCH` table.  Python keys the table by the string
`f'M{int(D) if D.is_integer() else D}'`; looking the diameter value up
among the (all integral) table diameters is equivalent: an integral `D`
formats to the matching `M<n>` key and a non-integral one to a key absent
from the table. -/
def coarse_pitch_table : List (ℚ × ℚ) :=
  [(3, 1/2), (4, 7/10), (5, 4/5), (6, 1), (8, 5/4), (10, 3/2), (12, 7/4),
   (14, 2), (16, 2), (18, 5/2), (20, 5/2), (24, 3), (27, 3), (30, 7/2),
   (33, 7/2), (36, 4), (39, 4), (42, 9/2), (48, 5), (56, 11/2), (64, 6)]

def coarsePitch (D : ℚ) : Option ℚ :=
  (coarse_pitch_table.find? (fun e => decide (e.1 = D))).map (·.2)

/-- The body of `parse_metric_thread` after the leading `M` has been
dropped: split on the first `X`, else on the first `-`, else treat the
whole remainder as a bare diameter and consult the coarse-pitch table;
`none` models every `ValueError` path (bad number, missing table entry). -/
def parse_after_M (s : List Char) : Option (ℚ × ℚ) :=
  if 'X' ∈ s then
    match parseDecimal (s.takeWhile (fun c => c ≠ 'X')),
          parseDecimal ((s.dropWhile (fun c => c ≠ 'X')).drop 1) with
    | some D, some p => some (D, p)
    | _, _ => none
  else if '-' ∈ s then
    match parseDecimal (s.takeWhile (fun c => c ≠ '-')),
          parseDecimal ((s.dropWhile (fun c => c ≠ '-')).drop 1) with
    | some D, some p => some (D, p)
    | _, _ => none
  else
    match parseDecimal s with
    | some D =>
      match coarsePitch D with
      | some p => some (D, p)
      | none => none
    | none => none

/-- `parse_metric_thread`: preprocess, require a leading `M`, parse the
remainder, and build the record with `At` from `tensile_stress_area`.
The canonical designation string the Python version stores is display
text and is omitted from the record. -/
def parse_metric_thread (s : String) : Option MetricThread :=
  match preprocess s.data with
  | 'M' :: rest =>
    (parse_after_M rest).map (fun Dp => ⟨Dp.1, Dp.2, tensile_stress_area Dp.1 Dp.2⟩)
  | _ => none

/-! ### Result bundle and recommendation engine -/

/-- The two utilization entries of a `calculate_stress_analysis` result
that the recommendation engine and the standards checker consume (the
remaining entries of that dict are not read by them). -/
structure StressUtil where
  bolt_utilization : ℚ
  thread_utilization : ℚ
  deriving DecidableEq

/-- The result dict handed to `generate_design_recommendations` /
`check_standards_compliance`: optional keys are modelled as `Option`
(`results.get('F_design_N', 0)` reads `F_design_N` with default 0). -/
structure ResultBundle where
  stress_analysis : Option StressUtil
  L_e_mm : ℚ
  n_threads : ℚ
  margin : Option ℚ
  F_design_N : Option ℚ
  deriving DecidableEq

/-- One tag per message string the recommendation engine can append. -/
inductive Msg where
  | boltCritical | boltHigh | boltModerate | boltLow
  | threadCritical | threadHigh | threadLow
  | engagementShort | engagementLong
  | threadsUnder5 | threadsUnder3
  | strengthMismatch
  | marginFail | marginLow | marginMarginal
  | softMaterialInsert | softMaterialSF
  | highLoadLocking
  deriving DecidableEq

inductive RecStatus where
  | FAIL | WARNING | GOOD
  deriving DecidableEq

structure RecResult where
  critical : List Msg
  warnings : List Msg
  recommendations : List Msg
  overall_status : RecStatus
  deriving DecidableEq

/-- `generate_design_recommendations`, message strings replaced by `Msg`
tags, appended in source order.  `none` models the `ZeroDivisionError`
raised by the strength-mismatch ratio `sigma_y_bolt / sigma_y_hole` when
the hole yield strength is zero. -/
def generate_design_recommendations (results : ResultBundle)
    (thread : MetricThread) (sigma_y_bolt sigma_y_hole : ℚ) : Option RecResult :=
  if sigma_y_hole = 0 then none else
  let cwr : List Msg × List Msg × List Msg :=
    match results.stress_analysis with
    | none => ([], [], [])
    | some stress =>
      let a : List Msg × List Msg × List Msg :=
        if stress.bolt_utilization > 90/100 then ([Msg.boltCritical], [], [])
        else if stress.bolt_utilization > 80/100 then ([], [Msg.boltHigh], [])
        else if stress.bolt_utilization > 60/100 then ([], [], [Msg.boltModerate])
        else if stress.bolt_utilization < 30/100 then ([], [], [Msg.boltLow])
        else ([], [], [])
      if stress.thread_utilization > 90/100 then (a.1 ++ [Msg.threadCritical], a.2.1, a.2.2)
      else if stress.thread_utilization > 80/100 then (a.1, a.2.1 ++ [Msg.threadHigh], a.2.2)
      else if stress.thread_utilization < 30/100 then (a.1, a.2.1, a.2.2 ++ [Msg.threadLow])
      else a
  let critical := cwr.1
  let warnings := cwr.2.1
  let recommendations := cwr.2.2
  let warnings :=
    if results.L_e_mm < thread.D * 1 then warnings ++ [Msg.engagementShort] else warnings
  let recommendations :=
    if results.L_e_mm > thread.D * 3 then recommendations ++ [Msg.engagementLong]
    else recommendations
  -- source order kept as written: `if n_threads < 5 … elif n_threads < 3 …`
  let cw : List Msg × List Msg :=
    if results.n_threads < 5 then (critical, warnings ++ [Msg.threadsUnder5])
    else if results.n_threads < 3 then (critical ++ [Msg.threadsUnder3], warnings)
    else (critical, warnings)
  let critical := cw.1
  let warnings := cw.2
  let recommendations :=
    if sigma_y_bolt / sigma_y_hole > 3 then recommendations ++ [Msg.strengthMismatch]
    else recommendations
  let cw2 : List Msg × List Msg :=
    match results.margin with
    | none => (critical, warnings)
    | some margin =>
      if margin < 1 then (critical ++ [Msg.marginFail], warnings)
      else if margin < 12/10 then (critical, warnings ++ [Msg.marginLow])
      else if margin < 15/10 then (critical, warnings ++ [Msg.marginMarginal])
      else (critical, warnings)
  let critical := cw2.1
  let warnings := cw2.2
  let recommendations :=
    if sigma_y_hole < 300 then
      recommendations ++ [Msg.softMaterialInsert, Msg.softMaterialSF]
    else recommendations
  let recommendations :=
    if results.F_design_N.getD 0 > 5000 then recommendations ++ [Msg.highLoadLocking]
    else recommendations
  some
    { critical := critical
      warnings := warnings
      recommendations := recommendations
      overall_status :=
        if critical ≠ [] then RecStatus.FAIL
        else if warnings ≠ [] then RecStatus.WARNING
        else RecStatus.GOOD }

/-! ### Standards checker -/

inductive Standard where
  | VDI2230 | ISO898 | ASME_BPVC | DIN
  deriving DecidableEq

/-- Thresholds of one standard.  `preload_range`/`thread_tolerance`
entries of the source table are never read by the checker and are
omitted.  `ratio_cap` is `max_engagement_ratio`, present only for
VDI2230.  An unknown standard name falls back to the VDI2230 entry in
the source (`.get(standard, …['VDI2230'])`), so the four-constructor
enumeration covers every reachable threshold set. -/
structure StdReq where
  min_safety_factor : ℚ
  min_threads_engaged : ℚ
  ratio_cap : Option ℚ
  deriving DecidableEq

def standards_requirements : Standard → StdReq
  | Standard.VDI2230 => ⟨3/2, 6, some (5/2)⟩
  | Standard.ISO898 => ⟨3/2, 5, none⟩
  | Standard.ASME_BPVC => ⟨2, 8, none⟩
  | Standard.DIN => ⟨3/2, 5, none⟩

/-- Effective safety factor: minimum of the reciprocal utilizations when a
stress result is present (`999` standing in for a non-positive
utilization); else the supplied margin; else `2.0`. -/
def effective_safety_factor (results : ResultBundle) : ℚ :=
  match results.stress_analysis with
  | some s =>
    min (if s.bolt_utilization > 0 then 1 / s.bolt_utilization else 999)
        (if s.thread_utilization > 0 then 1 / s.thread_utilization else 999)
  | none =>
    match results.margin with
    | some m => m
    | none => 2

/-- Checker output: the pass/fail Booleans of the emitted check lines (in
order), the pass/fail counters, and the overall compliance flag
(`fails == 0`). -/
structure ComplianceResult where
  checks : List Bool
  passes : ℕ
  fails : ℕ
  compliant : Bool
  deriving DecidableEq

/-- `check_standards_compliance`.  The safety-factor and threads-engaged
checks increment `passes`/`fails`; the engagement-ratio check (present
only when the standard defines `max_engagement_ratio`) increments
`passes` when it holds and otherwise only emits an advisory line.  `none`
models the `ZeroDivisionError` of `results['L_e_mm'] / thread.D` when the
ratio check runs with a zero diameter.  (Every standard in the table
defines `min_threads_engaged`, so that check always runs.) -/
def check_standards_compliance (results : ResultBundle) (thread : MetricThread)
    (std : Standard) : Option ComplianceResult :=
  let req := standards_requirements std
  let n_effective := effective_safety_factor results
  let sfPass : Bool := n_effective ≥ req.min_safety_factor
  let thrPass : Bool := results.n_threads ≥ req.min_threads_engaged
  let passes0 := (if sfPass then 1 else 0) + (if thrPass then 1 else 0)
  let fails0 := (if sfPass then 0 else 1) + (if thrPass then 0 else 1)
  match req.ratio_cap with
  | none =>
    some ⟨[sfPass, thrPass], passes0, fails0, fails0 == 0⟩
  | some cap =>
    if thread.D = 0 then none
    else
      let ratioPass : Bool := results.L_e_mm / thread.D ≤ cap
      some ⟨[sfPass, thrPass, ratioPass],
            passes0 + (if ratioPass then 1 else 0), fails0, fails0 == 0⟩

/-! ### Fatigue analyzer -/

inductive SurfaceFinish where
  | polished | ground | machined | hot_rolled | as_forged | other
  deriving DecidableEq

/-- `finish_factors.get(surface_finish, 0.78)`. -/
def finish_factor : SurfaceFinish → ℚ
  | SurfaceFinish.polished => 1
  | SurfaceFinish.ground => 88/100
  | SurfaceFinish.machined => 78/100
  | SurfaceFinish.hot_rolled => 52/100
  | SurfaceFinish.as_forged => 39/100
  | SurfaceFinish.other => 78/100

/-- A float that may be `float('inf')`. -/
inductive LifeVal where
  | infinite
  | finite (c : ℚ)
  deriving DecidableEq

inductive LifeStatus where
  | INFINITE_LIFE | FINITE_LIFE
  deriving DecidableEq

structure FatigueResult where
  endurance_limit : ℚ
  mean_stress : ℚ
  alternating_stress : ℚ
  fatigue_safety_factor : ℚ
  estimated_cycles : LifeVal
  status : LifeStatus
  safe_for_cycles : Bool
  deriving DecidableEq

/-- Corrected endurance limit `S_e`: the `S_e_prime` plateau rule
(`0.5 σy` up to 1400 MPa, else 700) times the surface, size (0.85) and
reliability (0.81) factors. -/
def fatigue_S_e (sigma_y_bolt : ℚ) (surface_finish : SurfaceFinish) : ℚ :=
  (if sigma_y_bolt ≤ 1400 then (1/2) * sigma_y_bolt else 700)
    * finish_factor surface_finish * (85/100) * (81/100)

/-- `F / At if At > 0 else 0`, the guarded stress used for both the mean
and the alternating stress. -/
def fatigue_sigma (F At : ℚ) : ℚ :=
  if At > 0 then F / At else 0

/-- The status assigned by the `n_fatigue >= 1` classification. -/
def fatigue_status (n_fatigue : ℚ) : LifeStatus :=
  if n_fatigue ≥ 1 then LifeStatus.INFINITE_LIFE else LifeStatus.FINITE_LIFE

/-- The cycles estimate assigned together with `fatigue_status` by the
same `n_fatigue >= 1` conditional: infinite for infinite life, else the
Basquin extrapolation `(S_e/σ_alt)^9` when `σ_alt > 0` and infinite when
it is not. -/
def fatigue_cycles (n_fatigue S_e sigma_alt : ℚ) : LifeVal :=
  if n_fatigue ≥ 1 then LifeVal.infinite
  else if sigma_alt > 0 then LifeVal.finite ((S_e / sigma_alt) ^ 9)
  else LifeVal.infinite

/-- `cycles_to_failure > cycles_expected if cycles_to_failure != inf else True`. -/
def safe_flag (v : LifeVal) (cycles_expected : ℚ) : Bool :=
  match v with
  | LifeVal.infinite => true
  | LifeVal.finite c => c > cycles_expected

/-- `fatigue_analysis`.  `none` models the `ZeroDivisionError` of the
Goodman expression `1 / (sigma_alt/S_e + sigma_mean/sigma_y)` when that
denominator is zero (the source guards only `S_e > 0 and sigma_y > 0`). -/
def fatigue_analysis (th : MetricThread) (F_mean F_amplitude sigma_y_bolt
    cycles_expected : ℚ) (surface_finish : SurfaceFinish) : Option FatigueResult :=
  let S_e := fatigue_S_e sigma_y_bolt surface_finish
  let sigma_mean := fatigue_sigma F_mean th.At
  let sigma_alt := fatigue_sigma F_amplitude th.At
  if S_e > 0 ∧ sigma_y_bolt > 0 then
    if sigma_alt / S_e + sigma_mean / sigma_y_bolt = 0 then none
    else
      some
        { endurance_limit := S_e
          mean_stress := sigma_mean
          alternating_stress := sigma_alt
          fatigue_safety_factor := 1 / (sigma_alt / S_e + sigma_mean / sigma_y_bolt)
          estimated_cycles :=
            fatigue_cycles (1 / (sigma_alt / S_e + sigma_mean / sigma_y_bolt)) S_e sigma_alt
          status := fatigue_status (1 / (sigma_alt / S_e + sigma_mean / sigma_y_bolt))
          safe_for_cycles :=
            safe_flag
              (fatigue_cycles (1 / (sigma_alt / S_e + sigma_mean / sigma_y_bolt)) S_e sigma_alt)
              cycles_expected }
  else
    some
      { endurance_limit := S_e
        mean_stress := sigma_mean
        alternating_stress := sigma_alt
        fatigue_safety_factor := 0
        estimated_cycles := fatigue_cycles 0 S_e sigma_alt
        status := fatigue_status 0
        safe_for_cycles := safe_flag (fatigue_cycles 0 S_e sigma_alt) cycles_expected }

/-! ### Helicoil designer -/

inductive InsertMaterial where
  | stainless | phosphor_bronze | inconel | other
  deriving DecidableEq

/-- `insert_yields.get(insert_material, 520)`. -/
def insert_yields : InsertMaterial → ℚ
  | InsertMaterial.stainless => 520
  | InsertMaterial.phosphor_bronze => 380
  | InsertMaterial.inconel => 1000
  | InsertMaterial.other => 520

/-- Helicoil result; the `insert_type`/`tap_size` display strings and the
recommendation tag's text are modelled by the Boolean
`highly_recommended` (`sigma_y_hole_original < 300`). -/
structure InsertResult where
  insert_yield : ℚ
  engagement_with_insert : ℚ
  engagement_without_insert : ℚ
  engagement_reduction_percent : ℚ
  drill_size : ℚ
  threads_engaged : ℚ
  highly_recommended : Bool
  deriving DecidableEq

/-- `helicoil_design`: re-runs the design-load solver with the insert
yield and with the original hole yield (default `k_shear`), then reports
the reduction percentage.  `none` models the solver's `ValueError` and
the `ZeroDivisionError` of the reduction expression when the without-
insert engagement is zero. -/
def helicoil_design (th : MetricThread) (sigma_y_hole_original F_design
    n_hole : ℚ) (insert_material : InsertMaterial) : Option InsertResult :=
  let sigma_y_insert := insert_yields insert_material
  match required_engagement_for_design_load th F_design sigma_y_insert n_hole (62/100),
        required_engagement_for_design_load th F_design sigma_y_hole_original n_hole (62/100) with
  | some L_with, some L_without =>
    if L_without = 0 then none
    else
      some
        { insert_yield := sigma_y_insert
          engagement_with_insert := L_with
          engagement_without_insert := L_without
          engagement_reduction_percent := ((L_without - L_with) / L_without) * 100
          drill_size := th.D * (1085/1000)
          threads_engaged := L_with / th.p
          highly_recommended := sigma_y_hole_original < 300 }
  | _, _ => none

/-! ### Load-case analyzer -/

/-- `LoadCase`; the display name is modelled by a numeric tag, and the
`frequency`/`probability` fields (copied through unchanged) are omitted. -/
structure LoadCase where
  name : ℕ
  F_axial : ℚ
  F_shear : ℚ
  M_bending : ℚ
  deriving DecidableEq

structure CaseResult where
  load_case : ℕ
  F_equivalent : ℚ
  L_e : ℚ
  threads_engaged : ℚ
  bolt_capacity : ℚ
  margin : ℚ
  deriving DecidableEq

/-- Equivalent axial load of one case: axial + bending contribution (only
when `M_bending > 0` and the spacing is positive) + `0.3 ×` shear (only
when positive). -/
def equivalent_load (c : LoadCase) (bolt_spacing : ℚ) : ℚ :=
  c.F_axial
  + (if c.M_bending > 0 ∧ bolt_spacing > 0 then 2 * c.M_bending / bolt_spacing else 0)
  + (if c.F_shear > 0 then (3/10) * c.F_shear else 0)

/-- Loop body of `analyze_load_cases` for one case (solver called with the
default `k_shear = 0.62`); `none` propagates the solver's error and the
`ZeroDivisionError` of `bolt_tensile_capacity` when `n_bolt = 0`. -/
def solve_case (th : MetricThread) (sigma_y_bolt sigma_y_hole n_bolt n_hole
    bolt_spacing : ℚ) (c : LoadCase) : Option CaseResult :=
  if n_bolt = 0 then none
  else
    let F_equiv := equivalent_load c bolt_spacing
    match required_engagement_for_design_load th F_equiv sigma_y_hole n_hole (62/100) with
    | none => none
    | some L_e =>
      let cap := bolt_tensile_capacity th sigma_y_bolt n_bolt
      some ⟨c.name, F_equiv, L_e, L_e / th.p, cap, if F_equiv > 0 then cap / F_equiv else 999⟩

def solve_cases (th : MetricThread) (sigma_y_bolt sigma_y_hole n_bolt n_hole
    bolt_spacing : ℚ) : List LoadCase → Option (List CaseResult)
  | [] => some []
  | c :: cs =>
    match solve_case th sigma_y_bolt sigma_y_hole n_bolt n_hole bolt_spacing c,
          solve_cases th sigma_y_bolt sigma_y_hole n_bolt n_hole bolt_spacing cs with
    | some r, some rs => some (r :: rs)
    | _, _ => none

/-- Python `max(list, key=f)`: fold keeping the current champion,
replacing it only when the new key is strictly greater — so the first
element attaining the maximal key wins. -/
def pymax (f : α → ℚ) : α → List α → α
  | a, [] => a
  | a, b :: l => pymax f (if f a < f b then b else a) l

structure LoadCaseAnalysis where
  all_cases : List CaseResult
  critical_case : CaseResult
  design_for : ℕ
  design_engagement : ℚ
  num_cases : ℕ
  deriving DecidableEq

/-- `analyze_load_cases`: evaluate every case, then select the critical
case with Python `max` keyed on `L_e`.  `none` models a solver error in
any iteration and the `ValueError` of `max` on an empty list. -/
def analyze_load_cases (th : MetricThread) (cases : List LoadCase)
    (sigma_y_bolt sigma_y_hole n_bolt n_hole bolt_spacing : ℚ) :
    Option LoadCaseAnalysis :=
  match solve_cases th sigma_y_bolt sigma_y_hole n_bolt n_hole bolt_spacing cases with
  | none => none
  | some [] => none
  | some (r :: rs) =>
    let crit := pymax (fun x => x.L_e) r rs
    some ⟨r :: rs, crit, crit.load_case, crit.L_e, cases.length⟩

/-! ### Concrete inputs used by witnesses and counterexamples -/

/-- M8×1.25 thread record. -/
def thM8 : MetricThread := ⟨8, 5/4, tensile_stress_area 8 (5/4)⟩

/-- M10×1.5 (coarse) thread record. -/
def thM10 : MetricThread := ⟨10, 3/2, tensile_stress_area 10 (3/2)⟩

/-- A pair with `D - 0.9382·p < 0` but `D - 0.54127·p > 0`. -/
def thC1 : MetricThread := ⟨7/10, 1, tensile_stress_area (7/10) 1⟩

/-- A pair with `D - 0.54127·p < 0` (and positive pitch). -/
def thDeg : MetricThread := ⟨1/2, 1, tensile_stress_area (1/2) 1⟩

/-! ### Theorems -/

/-- C1, counterexample: for `D = 0.7`, `p = 1` the geometry is degenerate in
the claim's sense (`D - 0.9382·p ≤ 0`), yet with valid material inputs both
solvers return a value instead of raising. -/
theorem C1_counterexample :
    thC1.D - (9382/10000) * thC1.p ≤ 0
    ∧ (required_engagement_for_design_load thC1 1000 200 2 (62/100)).isSome = true
    ∧ (required_engagement_for_equal_strength thC1 640 200 2 2 (62/100)).isSome = true := by
  refine ⟨by norm_num [thC1], ?_, ?_⟩
  · norm_num [required_engagement_for_design_load, As_factor, thC1]
  · norm_num [required_engagement_for_equal_strength, bolt_tensile_capacity, As_factor,
      thC1, tensile_stress_area]

/-- C1, amended: each solver raises exactly when the shear-area factor or the
allowable shear stress is non-positive; in particular `D - 0.54127·p ≤ 0`
(with positive pitch) always raises, while `D - 0.9382·p ≤ 0` by itself is
not checked; and a returned engagement length is never negative for a
non-negative load. -/
theorem C1_geometry_errors (th : MetricThread) (F sigma_y_hole n_hole k_shear
    sigma_y_bolt n_bolt : ℚ) :
    (required_engagement_for_design_load th F sigma_y_hole n_hole k_shear = none ↔
      As_factor th ≤ 0 ∨ k_shear * sigma_y_hole / n_hole ≤ 0)
    ∧ (n_bolt ≠ 0 →
        (required_engagement_for_equal_strength th sigma_y_bolt sigma_y_hole
            n_bolt n_hole k_shear = none ↔
          As_factor th ≤ 0 ∨ k_shear * sigma_y_hole / n_hole ≤ 0))
    ∧ (0 < th.p → th.D - (54127/100000) * th.p ≤ 0 →
        required_engagement_for_design_load th F sigma_y_hole n_hole k_shear = none)
    ∧ (0 ≤ F → ∀ L, required_engagement_for_design_load th F sigma_y_hole n_hole k_shear
        = some L → 0 ≤ L) := by
  refine ⟨?_, ?_, ?_, ?_⟩
  · by_cases h : As_factor th ≤ 0 ∨ k_shear * sigma_y_hole / n_hole ≤ 0 <;>
      simp [required_engagement_for_design_load, h]
  · intro hnb
    by_cases h : As_factor th ≤ 0 ∨ k_shear * sigma_y_hole / n_hole ≤ 0 <;>
      simp [required_engagement_for_equal_strength, hnb, h]
  · intro hp hgeom
    have hAs : As_factor th ≤ 0 := by
      have h1 : (0:ℚ) < (5625/10000) * th.p := mul_pos (by norm_num) hp
      calc As_factor th = ((5625/10000) * th.p) * (th.D - (54127/100000) * th.p) := by
            unfold As_factor; ring
        _ ≤ 0 := mul_nonpos_of_nonneg_of_nonpos h1.le hgeom
    simp [required_engagement_for_design_load, hAs]
  · intro hF L hL
    simp only [required_engagement_for_design_load] at hL
    split_ifs at hL with h
    rw [not_or, not_le, not_le] at h
    injection hL with hL
    subst hL
    exact div_nonneg hF (mul_pos h.1 h.2).le

/-- C1 witness: the amended theorem applied at `D = 0.5, p = 1`
(degenerate, both solvers raise) and at `D = 0.7, p = 1` (the result is
non-negative). -/
theorem C1_geometry_errors_witness :
    required_engagement_for_design_load thDeg 1000 200 2 (62/100) = none
    ∧ required_engagement_for_equal_strength thDeg 640 200 2 2 (62/100) = none
    ∧ (0:ℚ) ≤ 800000000/4428567 := by
  refine ⟨(C1_geometry_errors thDeg 1000 200 2 (62/100) 640 2).2.2.1
      (by norm_num [thDeg]) (by norm_num [thDeg]),
    ((C1_geometry_errors thDeg 1000 200 2 (62/100) 640 2).2.1
      (by norm_num)).mpr (Or.inl (by norm_num [As_factor, thDeg])),
    (C1_geometry_errors thC1 1000 200 2 (62/100) 640 2).2.2.2 (by norm_num)
      (800000000/4428567)
      (by norm_num [required_engagement_for_design_load, As_factor, thC1])⟩

/-- C2: with 2 threads engaged (and no other rule firing) the engine emits
only the fewer-than-5-threads warning; the fewer-than-3-threads critical
message is not produced, because the source tests `n_threads < 5` first and
reaches the `n_threads < 3` branch never.  This exhibits the divergence from
the documented rule "threads engaged <3→critical". -/
theorem C2_threads_critical_unreachable :
    (2:ℚ) < 3
    ∧ generate_design_recommendations ⟨none, 20, 2, none, none⟩ thM8 640 400 =
        some ⟨[], [Msg.threadsUnder5], [], RecStatus.WARNING⟩ := by
  constructor
  · norm_num
  · rw [generate_design_recommendations]
    norm_num [thM8]

/-- C3: under positive inputs, the equal-strength solver returns exactly the
bolt capacity together with the engagement the design-load solver computes
for that capacity as its load. -/
theorem C3_equal_strength_consistent (th : MetricThread)
    (sigma_y_bolt sigma_y_hole n_bolt n_hole : ℚ)
    (hAs : 0 < As_factor th) (hb : 0 < sigma_y_bolt) (hh : 0 < sigma_y_hole)
    (hnb : 0 < n_bolt) (hnh : 0 < n_hole) :
    required_engagement_for_equal_strength th sigma_y_bolt sigma_y_hole
        n_bolt n_hole (62/100) =
      some (bolt_tensile_capacity th sigma_y_bolt n_bolt /
              (As_factor th * ((62/100) * sigma_y_hole / n_hole)),
            bolt_tensile_capacity th sigma_y_bolt n_bolt)
    ∧ required_engagement_for_design_load th
        (bolt_tensile_capacity th sigma_y_bolt n_bolt) sigma_y_hole n_hole (62/100) =
      some (bolt_tensile_capacity th sigma_y_bolt n_bolt /
              (As_factor th * ((62/100) * sigma_y_hole / n_hole))) := by
  have htau : 0 < (62/100) * sigma_y_hole / n_hole :=
    div_pos (mul_pos (by norm_num) hh) hnh
  have hcond : ¬(As_factor th ≤ 0 ∨ (62/100) * sigma_y_hole / n_hole ≤ 0) := by
    push_neg; exact ⟨hAs, htau⟩
  constructor
  · simp [required_engagement_for_equal_strength, hnb.ne', hcond]
  · simp [required_engagement_for_design_load, hcond]

/-- C3 witness: the consistency at M8×1.25, grade-8.8 bolt into a 200 MPa
hole with both safety factors 2. -/
theorem C3_equal_strength_consistent_witness :
    required_engagement_for_equal_strength thM8 640 200 2 2 (62/100) =
      some (bolt_tensile_capacity thM8 640 2 /
              (As_factor thM8 * ((62/100) * 200 / 2)),
            bolt_tensile_capacity thM8 640 2)
    ∧ required_engagement_for_design_load thM8
        (bolt_tensile_capacity thM8 640 2) 200 2 (62/100) =
      some (bolt_tensile_capacity thM8 640 2 /
              (As_factor thM8 * ((62/100) * 200 / 2))) :=
  C3_equal_strength_consistent thM8 640 200 2 2 (by norm_num [As_factor, thM8])
    (by norm_num) (by norm_num) (by norm_num) (by norm_num)

/-- C5, counterexample: at a zero design load the engagement is 0 for every
hole yield strength, so the solver is not strictly decreasing in the hole
yield strength: raising it from 100 to 200 MPa leaves the output unchanged. -/
theorem C5_counterexample :
    (100:ℚ) < 200
    ∧ required_engagement_for_design_load thM8 0 100 2 (62/100) = some 0
    ∧ required_engagement_for_design_load thM8 0 200 2 (62/100) = some 0 := by
  refine ⟨by norm_num, ?_, ?_⟩ <;>
    norm_num [required_engagement_for_design_load, As_factor, thM8]

/-- C5, amended: with positive shear-area factor and allowable shear
stress, the design-load solver is strictly increasing in the load; and it
is strictly decreasing in the hole yield strength provided additionally
that the design load is positive. -/
theorem C5_monotonicity (th : MetricThread) (F F1 F2 sigma_y_hole s1 s2 n_hole k_shear : ℚ) :
    (0 < As_factor th → 0 < k_shear * sigma_y_hole / n_hole → F1 < F2 →
      required_engagement_for_design_load th F1 sigma_y_hole n_hole k_shear
          = some (F1 / (As_factor th * (k_shear * sigma_y_hole / n_hole)))
      ∧ required_engagement_for_design_load th F2 sigma_y_hole n_hole k_shear
          = some (F2 / (As_factor th * (k_shear * sigma_y_hole / n_hole)))
      ∧ F1 / (As_factor th * (k_shear * sigma_y_hole / n_hole))
          < F2 / (As_factor th * (k_shear * sigma_y_hole / n_hole)))
    ∧ (0 < As_factor th → 0 < k_shear → 0 < n_hole → 0 < s1 → s1 < s2 → 0 < F →
      required_engagement_for_design_load th F s2 n_hole k_shear
          = some (F / (As_factor th * (k_shear * s2 / n_hole)))
      ∧ required_engagement_for_design_load th F s1 n_hole k_shear
          = some (F / (As_factor th * (k_shear * s1 / n_hole)))
      ∧ F / (As_factor th * (k_shear * s2 / n_hole))
          < F / (As_factor th * (k_shear * s1 / n_hole))) := by
  constructor
  · intro hAs htau hF
    have hcond : ¬(As_factor th ≤ 0 ∨ k_shear * sigma_y_hole / n_hole ≤ 0) := by
      push_neg; exact ⟨hAs, htau⟩
    refine ⟨by simp [required_engagement_for_design_load, hcond],
      by simp [required_engagement_for_design_load, hcond], ?_⟩
    exact (div_lt_div_right (mul_pos hAs htau)).mpr hF
  · intro hAs hk hnh hs1 hs12 hF
    have ht1 : 0 < k_shear * s1 / n_hole := div_pos (mul_pos hk hs1) hnh
    have ht2 : 0 < k_shear * s2 / n_hole :=
      div_pos (mul_pos hk (hs1.trans hs12)) hnh
    have hcond1 : ¬(As_factor th ≤ 0 ∨ k_shear * s1 / n_hole ≤ 0) := by
      push_neg; exact ⟨hAs, ht1⟩
    have hcond2 : ¬(As_factor th ≤ 0 ∨ k_shear * s2 / n_hole ≤ 0) := by
      push_neg; exact ⟨hAs, ht2⟩
    refine ⟨by simp [required_engagement_for_design_load, hcond2],
      by simp [required_engagement_for_design_load, hcond1], ?_⟩
    apply div_lt_div_of_pos_left hF (mul_pos hAs ht1)
    have : k_shear * s1 / n_hole < k_shear * s2 / n_hole :=
      (div_lt_div_right hnh).mpr ((mul_lt_mul_left hk).mpr hs12)
    exact (mul_lt_mul_left hAs).mpr this

/-- C5 witness: both monotonicity parts instantiated at M8×1.25:
loads 1000 < 2000 N, and hole yields 100 < 200 MPa at 1000 N. -/
theorem C5_monotonicity_witness :
    (required_engagement_for_design_load thM8 1000 200 2 (62/100)
          = some (1000 / (As_factor thM8 * ((62/100) * 200 / 2)))
      ∧ required_engagement_for_design_load thM8 2000 200 2 (62/100)
          = some (2000 / (As_factor thM8 * ((62/100) * 200 / 2)))
      ∧ 1000 / (As_factor thM8 * ((62/100) * 200 / 2))
          < 2000 / (As_factor thM8 * ((62/100) * 200 / 2)))
    ∧ (required_engagement_for_design_load thM8 1000 200 2 (62/100)
          = some (1000 / (As_factor thM8 * ((62/100) * 200 / 2)))
      ∧ required_engagement_for_design_load thM8 1000 100 2 (62/100)
          = some (1000 / (As_factor thM8 * ((62/100) * 100 / 2)))
      ∧ 1000 / (As_factor thM8 * ((62/100) * 200 / 2))
          < 1000 / (As_factor thM8 * ((62/100) * 100 / 2))) :=
  ⟨(C5_monotonicity thM8 1000 1000 2000 200 100 200 2 (62/100)).1
      (by norm_num [As_factor, thM8]) (by norm_num) (by norm_num),
    (C5_monotonicity thM8 1000 1000 2000 200 100 200 2 (62/100)).2
      (by norm_num [As_factor, thM8]) (by norm_num) (by norm_num) (by norm_num)
      (by norm_num) (by norm_num)⟩

set_option maxHeartbeats 2000000 in
/-- C9: with a thread of positive tensile stress area, a positive bolt yield
strength and both the mean and the amplitude force zero, the Goodman
denominator is zero and the fatigue analysis raises `ZeroDivisionError`
(returns no result record). -/
theorem C9_goodman_division_by_zero :
    (0:ℚ) < thM10.At ∧ (0:ℚ) < 900
    ∧ fatigue_analysis thM10 0 0 900 1000000 SurfaceFinish.machined = none := by
  refine ⟨by norm_num [thM10, tensile_stress_area], by norm_num, ?_⟩
  simp only [fatigue_analysis, fatigue_S_e, fatigue_sigma, finish_factor, thM10,
    tensile_stress_area]
  norm_num

/-- C10: under valid inputs the helicoil engagement-reduction percentage is
exactly `(1 - σy_hole_original/σy_insert) × 100`, a function of the two
yield strengths alone. -/
theorem C10_helicoil_reduction (th : MetricThread)
    (sigma_y_hole_original F_design n_hole : ℚ) (mat : InsertMaterial)
    (hAs : 0 < As_factor th) (hs : 0 < sigma_y_hole_original)
    (hF : 0 < F_design) (hnh : 0 < n_hole) :
    ∃ r, helicoil_design th sigma_y_hole_original F_design n_hole mat = some r
      ∧ r.engagement_reduction_percent =
          (1 - sigma_y_hole_original / insert_yields mat) * 100 := by
  have hins : 0 < insert_yields mat := by cases mat <;> norm_num [insert_yields]
  have htauI : 0 < (62/100) * insert_yields mat / n_hole :=
    div_pos (mul_pos (by norm_num) hins) hnh
  have htauO : 0 < (62/100) * sigma_y_hole_original / n_hole :=
    div_pos (mul_pos (by norm_num) hs) hnh
  have hcondI : ¬(As_factor th ≤ 0 ∨ (62/100) * insert_yields mat / n_hole ≤ 0) := by
    push_neg; exact ⟨hAs, htauI⟩
  have hcondO : ¬(As_factor th ≤ 0 ∨ (62/100) * sigma_y_hole_original / n_hole ≤ 0) := by
    push_neg; exact ⟨hAs, htauO⟩
  have hLwo : 0 < F_design / (As_factor th * ((62/100) * sigma_y_hole_original / n_hole)) :=
    div_pos hF (mul_pos hAs htauO)
  have hR : helicoil_design th sigma_y_hole_original F_design n_hole mat =
      some
        { insert_yield := insert_yields mat
          engagement_with_insert :=
            F_design / (As_factor th * ((62/100) * insert_yields mat / n_hole))
          engagement_without_insert :=
            F_design / (As_factor th * ((62/100) * sigma_y_hole_original / n_hole))
          engagement_reduction_percent :=
            (F_design / (As_factor th * ((62/100) * sigma_y_hole_original / n_hole))
              - F_design / (As_factor th * ((62/100) * insert_yields mat / n_hole)))
            / (F_design / (As_factor th * ((62/100) * sigma_y_hole_original / n_hole))) * 100
          drill_size := th.D * (1085/1000)
          threads_engaged :=
            F_design / (As_factor th * ((62/100) * insert_yields mat / n_hole)) / th.p
          highly_recommended := sigma_y_hole_original < 300 } := by
    simp only [helicoil_design, required_engagement_for_design_load, if_neg hcondI,
      if_neg hcondO, if_neg hLwo.ne']
  refine ⟨_, hR, ?_⟩
  show (F_design / (As_factor th * ((62/100) * sigma_y_hole_original / n_hole))
        - F_design / (As_factor th * ((62/100) * insert_yields mat / n_hole)))
      / (F_design / (As_factor th * ((62/100) * sigma_y_hole_original / n_hole))) * 100
      = (1 - sigma_y_hole_original / insert_yields mat) * 100
  field_simp
  ring

/-- C10 witness: M8×1.25, a 275 MPa hole, 15 kN design load, stainless
insert. -/
theorem C10_helicoil_reduction_witness :
    ∃ r, helicoil_design thM8 275 15000 2 InsertMaterial.stainless = some r
      ∧ r.engagement_reduction_percent =
          (1 - 275 / insert_yields InsertMaterial.stainless) * 100 :=
  C10_helicoil_reduction thM8 275 15000 2 InsertMaterial.stainless
    (by norm_num [As_factor, thM8]) (by norm_num) (by norm_num) (by norm_num)

/-- C4: whenever the checker returns a report, an effective safety factor
below the standard's minimum forces `compliant = false`; and the value of
`compliant` is unchanged under any change of the engagement length — the
quantity the (VDI2230-only) engagement-ratio check inspects — so that
advisory check can never flip compliance. -/
theorem C4_standards_compliance (results : ResultBundle) (th : MetricThread)
    (std : Standard) (r : ComplianceResult)
    (h : check_standards_compliance results th std = some r) :
    (effective_safety_factor results < (standards_requirements std).min_safety_factor →
      r.compliant = false)
    ∧ (∀ s r', check_standards_compliance {results with L_e_mm := s} th std = some r' →
        r'.compliant = r.compliant) := by
  rcases hrc : (standards_requirements std).ratio_cap with _ | cap
  · simp only [check_standards_compliance, hrc] at h
    injection h with h
    subst h
    refine ⟨?_, ?_⟩
    · intro hlt
      have hsf :
          decide (effective_safety_factor results ≥
            (standards_requirements std).min_safety_factor) = false := by
        simp [not_le.mpr hlt]
      simp only [hsf, Bool.false_eq_true, if_false]
      cases hthr :
          decide (results.n_threads ≥ (standards_requirements std).min_threads_engaged) <;>
        simp [hthr]
    · intro s r' h'
      simp only [check_standards_compliance, hrc] at h'
      injection h' with h'
      subst h'
      rfl
  · simp only [check_standards_compliance, hrc] at h
    by_cases hD : th.D = 0
    · rw [if_pos hD] at h
      cases h
    · rw [if_neg hD] at h
      injection h with h
      subst h
      refine ⟨?_, ?_⟩
      · intro hlt
        have hsf :
            decide (effective_safety_factor results ≥
              (standards_requirements std).min_safety_factor) = false := by
          simp [not_le.mpr hlt]
        simp only [hsf, Bool.false_eq_true, if_false]
        cases hthr :
            decide (results.n_threads ≥ (standards_requirements std).min_threads_engaged) <;>
          simp [hthr]
      · intro s r' h'
        simp only [check_standards_compliance, hrc] at h'
        rw [if_neg hD] at h'
        injection h' with h'
        subst h'
        rfl

/-- C4 witness: a bundle with no stress result and margin 1.2 under
VDI2230 — the safety-factor check fails, so `compliant = false`; and the
report for the same bundle with engagement length 500 mm (ratio check now
failing) has the same `compliant` value. -/
theorem C4_standards_compliance_witness :
    (⟨[false, true, true], 2, 1, false⟩ : ComplianceResult).compliant = false
    ∧ (⟨[false, true, false], 1, 1, false⟩ : ComplianceResult).compliant =
        (⟨[false, true, true], 2, 1, false⟩ : ComplianceResult).compliant := by
  have h : check_standards_compliance ⟨none, 20, 7, some (12/10), none⟩ thM8
      Standard.VDI2230 = some ⟨[false, true, true], 2, 1, false⟩ := by
    rw [check_standards_compliance]
    norm_num [effective_safety_factor, standards_requirements, thM8]
  have h' : check_standards_compliance ⟨none, 500, 7, some (12/10), none⟩ thM8
      Standard.VDI2230 = some ⟨[false, true, false], 1, 1, false⟩ := by
    rw [check_standards_compliance]
    norm_num [effective_safety_factor, standards_requirements, thM8]
  exact ⟨(C4_standards_compliance ⟨none, 20, 7, some (12/10), none⟩ thM8
      Standard.VDI2230 ⟨[false, true, true], 2, 1, false⟩ h).1
      (by norm_num [effective_safety_factor, standards_requirements]),
    (C4_standards_compliance ⟨none, 20, 7, some (12/10), none⟩ thM8
      Standard.VDI2230 ⟨[false, true, true], 2, 1, false⟩ h).2 500
      ⟨[false, true, false], 1, 1, false⟩ h'⟩

/-- Python `max(_, key=f)` selects an element whose key every element is
`≤`, and everything strictly before the selected element in the list has a
strictly smaller key (the champion is replaced only on a strict
increase). -/
theorem pymax_spec (f : α → ℚ) (a : α) (l : List α) :
    (∀ x ∈ a :: l, f x ≤ f (pymax f a l))
    ∧ ∃ l1 l2, a :: l = l1 ++ pymax f a l :: l2
        ∧ ∀ x ∈ l1, f x < f (pymax f a l) := by
  induction l generalizing a with
  | nil =>
    refine ⟨?_, [], [], rfl, by simp⟩
    intro x hx
    rw [List.mem_singleton] at hx
    subst hx
    exact le_refl _
  | cons b t ih =>
    have hstep : pymax f a (b :: t) = pymax f (if f a < f b then b else a) t := rfl
    rw [hstep]
    by_cases hab : f a < f b
    · rw [if_pos hab]
      obtain ⟨hmax, l1, l2, hdec, hlt⟩ := ih b
      have hbm : f b ≤ f (pymax f b t) := hmax b (List.mem_cons_self b t)
      refine ⟨?_, a :: l1, l2, by rw [List.cons_append, ← hdec], ?_⟩
      · intro x hx
        rcases List.mem_cons.1 hx with rfl | hx
        · exact (hab.trans_le hbm).le
        · exact hmax x hx
      · intro x hx
        rcases List.mem_cons.1 hx with rfl | hx
        · exact hab.trans_le hbm
        · exact hlt x hx
    · rw [if_neg hab]
      have hba : f b ≤ f a := not_lt.1 hab
      obtain ⟨hmax, l1, l2, hdec, hlt⟩ := ih a
      have ham : f a ≤ f (pymax f a t) := hmax a (List.mem_cons_self a t)
      cases l1 with
      | nil =>
        simp only [List.nil_append] at hdec
        obtain ⟨hma, hl2⟩ := List.cons.inj hdec
        refine ⟨?_, [], b :: l2, ?_, by simp⟩
        · intro x hx
          rcases List.mem_cons.1 hx with rfl | hx
          · exact ham
          · rcases List.mem_cons.1 hx with rfl | hx
            · exact hba.trans ham
            · exact hmax x (List.mem_cons_of_mem a hx)
        · rw [List.nil_append, ← hma, hl2]
      | cons a' l1' =>
        rw [List.cons_append] at hdec
        obtain ⟨haa, ht⟩ := List.cons.inj hdec
        have ham' : f a < f (pymax f a t) := by
          have h0 := hlt a' (List.mem_cons_self a' l1')
          rw [← haa] at h0
          exact h0
        refine ⟨?_, a :: b :: l1', l2, ?_, ?_⟩
        · intro x hx
          rcases List.mem_cons.1 hx with rfl | hx
          · exact ham
          · rcases List.mem_cons.1 hx with rfl | hx
            · exact hba.trans ham
            · exact hmax x (List.mem_cons_of_mem a hx)
        · rw [List.cons_append, List.cons_append, ← ht]
        · intro x hx
          rcases List.mem_cons.1 hx with rfl | hx
          · exact ham'
          · rcases List.mem_cons.1 hx with rfl | hx
            · exact hba.trans_lt ham'
            · exact hlt x (List.mem_cons_of_mem a' hx)

/-- Under valid solver inputs, one load-case iteration succeeds and
returns the record built from the equivalent load. -/
theorem solve_case_some (th : MetricThread) (sb sh nb nh sp : ℚ) (hnb : nb ≠ 0)
    (hAs : 0 < As_factor th) (htau : 0 < (62/100) * sh / nh) (c : LoadCase) :
    solve_case th sb sh nb nh sp c =
      some ⟨c.name, equivalent_load c sp,
            equivalent_load c sp / (As_factor th * ((62/100) * sh / nh)),
            equivalent_load c sp / (As_factor th * ((62/100) * sh / nh)) / th.p,
            bolt_tensile_capacity th sb nb,
            if equivalent_load c sp > 0
            then bolt_tensile_capacity th sb nb / equivalent_load c sp else 999⟩ := by
  have hcond : ¬(As_factor th ≤ 0 ∨ (62/100) * sh / nh ≤ 0) := by
    push_neg; exact ⟨hAs, htau⟩
  simp only [solve_case, required_engagement_for_design_load, if_neg hnb, if_neg hcond]

/-- Under valid solver inputs, the whole loop succeeds and produces, case
by case, records whose `L_e` is the solver's output for that case. -/
theorem solve_cases_sound (th : MetricThread) (sb sh nb nh sp : ℚ) (hnb : nb ≠ 0)
    (hAs : 0 < As_factor th) (htau : 0 < (62/100) * sh / nh) (cs : List LoadCase) :
    ∃ rs, solve_cases th sb sh nb nh sp cs = some rs
      ∧ List.Forall₂ (fun c r => required_engagement_for_design_load th
          (equivalent_load c sp) sh nh (62/100) = some r.L_e) cs rs := by
  have hcond : ¬(As_factor th ≤ 0 ∨ (62/100) * sh / nh ≤ 0) := by
    push_neg; exact ⟨hAs, htau⟩
  induction cs with
  | nil => exact ⟨[], rfl, List.Forall₂.nil⟩
  | cons c cs ih =>
    obtain ⟨rs, hrs, hf⟩ := ih
    refine ⟨⟨c.name, equivalent_load c sp,
        equivalent_load c sp / (As_factor th * ((62/100) * sh / nh)),
        equivalent_load c sp / (As_factor th * ((62/100) * sh / nh)) / th.p,
        bolt_tensile_capacity th sb nb,
        if equivalent_load c sp > 0
        then bolt_tensile_capacity th sb nb / equivalent_load c sp else 999⟩ :: rs,
      ?_, ?_⟩
    · simp only [solve_cases, solve_case_some th sb sh nb nh sp hnb hAs htau c, hrs]
    · refine List.Forall₂.cons ?_ hf
      simp only [required_engagement_for_design_load, if_neg hcond]

/-- C6: under valid inputs, the analyzer returns one record per input case
(each carrying the independently computed engagement for that case's
equivalent load), reports the critical case's engagement, and the critical
case is a maximal-`L_e` record that every earlier record strictly
undercuts — i.e. the first of the maxima in input order. -/
theorem C6_critical_case (th : MetricThread) (cases : List LoadCase)
    (sigma_y_bolt sigma_y_hole n_bolt n_hole bolt_spacing : ℚ)
    (hne : cases ≠ []) (hnb : n_bolt ≠ 0) (hAs : 0 < As_factor th)
    (htau : 0 < (62/100) * sigma_y_hole / n_hole) :
    ∃ out, analyze_load_cases th cases sigma_y_bolt sigma_y_hole n_bolt n_hole
        bolt_spacing = some out
      ∧ List.Forall₂ (fun c r => required_engagement_for_design_load th
          (equivalent_load c bolt_spacing) sigma_y_hole n_hole (62/100) = some r.L_e)
          cases out.all_cases
      ∧ out.design_engagement = out.critical_case.L_e
      ∧ (∀ r ∈ out.all_cases, r.L_e ≤ out.critical_case.L_e)
      ∧ ∃ l1 l2, out.all_cases = l1 ++ out.critical_case :: l2
          ∧ ∀ r ∈ l1, r.L_e < out.critical_case.L_e := by
  obtain ⟨rs, hrs, hf⟩ := solve_cases_sound th sigma_y_bolt sigma_y_hole n_bolt n_hole
    bolt_spacing hnb hAs htau cases
  cases rs with
  | nil =>
    cases cases with
    | nil => exact absurd rfl hne
    | cons c cs => cases hf
  | cons r rs' =>
    refine ⟨⟨r :: rs', pymax (fun x => x.L_e) r rs',
        (pymax (fun x => x.L_e) r rs').load_case,
        (pymax (fun x => x.L_e) r rs').L_e, cases.length⟩, ?_, hf, rfl, ?_, ?_⟩
    · simp only [analyze_load_cases, hrs]
    · exact (pymax_spec (fun x => x.L_e) r rs').1
    · exact (pymax_spec (fun x => x.L_e) r rs').2

/-- C6 witness: two cases, 1000 N and 2000 N axial, on M8×1.25 into a
200 MPa hole — the analyzer runs and the selection properties hold. -/
theorem C6_critical_case_witness :
    ∃ out, analyze_load_cases thM8 [⟨0, 1000, 0, 0⟩, ⟨1, 2000, 0, 0⟩] 640 200 2 2 100
        = some out
      ∧ List.Forall₂ (fun c r => required_engagement_for_design_load thM8
          (equivalent_load c 100) 200 2 (62/100) = some r.L_e)
          [⟨0, 1000, 0, 0⟩, ⟨1, 2000, 0, 0⟩] out.all_cases
      ∧ out.design_engagement = out.critical_case.L_e
      ∧ (∀ r ∈ out.all_cases, r.L_e ≤ out.critical_case.L_e)
      ∧ ∃ l1 l2, out.all_cases = l1 ++ out.critical_case :: l2
          ∧ ∀ r ∈ l1, r.L_e < out.critical_case.L_e :=
  C6_critical_case thM8 [⟨0, 1000, 0, 0⟩, ⟨1, 2000, 0, 0⟩] 640 200 2 2 100
    (by simp) (by norm_num) (by norm_num [As_factor, thM8]) (by norm_num)

/-- The corrected endurance limit is positive for a positive bolt yield
strength. -/
theorem fatigue_S_e_pos (sigma_y_bolt : ℚ) (sf : SurfaceFinish)
    (h : 0 < sigma_y_bolt) : 0 < fatigue_S_e sigma_y_bolt sf := by
  have hf : 0 < finish_factor sf := by cases sf <;> norm_num [finish_factor]
  unfold fatigue_S_e
  split_ifs with h1
  · positivity
  · positivity

/-- C7: whenever the fatigue analysis returns a result (for positive
tensile area and bolt yield), the status is `INFINITE_LIFE` exactly when
the Goodman safety factor is at least 1, infinite life comes with infinite
cycles, and finite life comes with `(S_e/σ_alt)^9` cycles for positive
alternating stress and infinite cycles for zero alternating stress. -/
theorem C7_fatigue_classification (th : MetricThread)
    (F_mean F_amplitude sigma_y_bolt cycles_expected : ℚ) (sf : SurfaceFinish)
    (r : FatigueResult) (hAt : 0 < th.At) (hsy : 0 < sigma_y_bolt)
    (h : fatigue_analysis th F_mean F_amplitude sigma_y_bolt cycles_expected sf
        = some r) :
    (r.status = LifeStatus.INFINITE_LIFE ↔ 1 ≤ r.fatigue_safety_factor)
    ∧ (r.status = LifeStatus.INFINITE_LIFE → r.estimated_cycles = LifeVal.infinite)
    ∧ (r.status = LifeStatus.FINITE_LIFE →
        (0 < r.alternating_stress →
          r.estimated_cycles =
            LifeVal.finite ((r.endurance_limit / r.alternating_stress) ^ 9))
        ∧ (r.alternating_stress = 0 → r.estimated_cycles = LifeVal.infinite)) := by
  unfold fatigue_analysis at h
  dsimp only at h
  split_ifs at h with h1 h2
  · cases h
    show (fatigue_status (1 / (fatigue_sigma F_amplitude th.At
            / fatigue_S_e sigma_y_bolt sf + fatigue_sigma F_mean th.At / sigma_y_bolt))
          = LifeStatus.INFINITE_LIFE ↔
        1 ≤ 1 / (fatigue_sigma F_amplitude th.At
            / fatigue_S_e sigma_y_bolt sf + fatigue_sigma F_mean th.At / sigma_y_bolt))
      ∧ (fatigue_status (1 / (fatigue_sigma F_amplitude th.At
            / fatigue_S_e sigma_y_bolt sf + fatigue_sigma F_mean th.At / sigma_y_bolt))
          = LifeStatus.INFINITE_LIFE →
        fatigue_cycles (1 / (fatigue_sigma F_amplitude th.At
            / fatigue_S_e sigma_y_bolt sf + fatigue_sigma F_mean th.At / sigma_y_bolt))
          (fatigue_S_e sigma_y_bolt sf) (fatigue_sigma F_amplitude th.At)
          = LifeVal.infinite)
      ∧ (fatigue_status (1 / (fatigue_sigma F_amplitude th.At
            / fatigue_S_e sigma_y_bolt sf + fatigue_sigma F_mean th.At / sigma_y_bolt))
          = LifeStatus.FINITE_LIFE →
        (0 < fatigue_sigma F_amplitude th.At →
          fatigue_cycles (1 / (fatigue_sigma F_amplitude th.At
              / fatigue_S_e sigma_y_bolt sf + fatigue_sigma F_mean th.At / sigma_y_bolt))
            (fatigue_S_e sigma_y_bolt sf) (fatigue_sigma F_amplitude th.At)
            = LifeVal.finite ((fatigue_S_e sigma_y_bolt sf
                / fatigue_sigma F_amplitude th.At) ^ 9))
        ∧ (fatigue_sigma F_amplitude th.At = 0 →
          fatigue_cycles (1 / (fatigue_sigma F_amplitude th.At
              / fatigue_S_e sigma_y_bolt sf + fatigue_sigma F_mean th.At / sigma_y_bolt))
            (fatigue_S_e sigma_y_bolt sf) (fatigue_sigma F_amplitude th.At)
            = LifeVal.infinite))
    unfold fatigue_status fatigue_cycles
    split_ifs with hge hpos
    · exact ⟨⟨fun _ => hge, fun _ => rfl⟩, fun _ => rfl, fun hs => hs.elim⟩
    · exact ⟨⟨fun hs => hs.elim, fun hle => absurd hle hge⟩, fun hs => hs.elim,
        fun _ => ⟨fun _ => rfl, fun h0 => absurd (h0 ▸ hpos) (lt_irrefl (0:ℚ))⟩⟩
    · exact ⟨⟨fun hs => hs.elim, fun hle => absurd hle hge⟩, fun hs => hs.elim,
        fun _ => ⟨fun hp => absurd hp hpos, fun _ => rfl⟩⟩
  · exact absurd ⟨fatigue_S_e_pos sigma_y_bolt sf hsy, hsy⟩ h1

/-- C7 witness: a thread with `At = 50`, mean load 5000 N, amplitude
500 N, 1000 MPa bolt yield (machined finish) — a returned result whose
classification obeys the theorem. -/
theorem C7_fatigue_classification_witness :
    ((⟨268515/1000, 100, 10, 537030/73703, LifeVal.infinite, LifeStatus.INFINITE_LIFE,
        true⟩ : FatigueResult).status = LifeStatus.INFINITE_LIFE ↔
      1 ≤ (⟨268515/1000, 100, 10, 537030/73703, LifeVal.infinite,
        LifeStatus.INFINITE_LIFE, true⟩ : FatigueResult).fatigue_safety_factor)
    ∧ ((⟨268515/1000, 100, 10, 537030/73703, LifeVal.infinite, LifeStatus.INFINITE_LIFE,
        true⟩ : FatigueResult).status = LifeStatus.INFINITE_LIFE →
      (⟨268515/1000, 100, 10, 537030/73703, LifeVal.infinite, LifeStatus.INFINITE_LIFE,
        true⟩ : FatigueResult).estimated_cycles = LifeVal.infinite)
    ∧ ((⟨268515/1000, 100, 10, 537030/73703, LifeVal.infinite, LifeStatus.INFINITE_LIFE,
        true⟩ : FatigueResult).status = LifeStatus.FINITE_LIFE →
      (0 < (⟨268515/1000, 100, 10, 537030/73703, LifeVal.infinite,
          LifeStatus.INFINITE_LIFE, true⟩ : FatigueResult).alternating_stress →
        (⟨268515/1000, 100, 10, 537030/73703, LifeVal.infinite, LifeStatus.INFINITE_LIFE,
          true⟩ : FatigueResult).estimated_cycles =
          LifeVal.finite
            (((⟨268515/1000, 100, 10, 537030/73703, LifeVal.infinite,
                LifeStatus.INFINITE_LIFE, true⟩ : FatigueResult).endurance_limit /
              (⟨268515/1000, 100, 10, 537030/73703, LifeVal.infinite,
                LifeStatus.INFINITE_LIFE, true⟩ : FatigueResult).alternating_stress) ^ 9))
      ∧ ((⟨268515/1000, 100, 10, 537030/73703, LifeVal.infinite, LifeStatus.INFINITE_LIFE,
          true⟩ : FatigueResult).alternating_stress = 0 →
        (⟨268515/1000, 100, 10, 537030/73703, LifeVal.infinite, LifeStatus.INFINITE_LIFE,
          true⟩ : FatigueResult).estimated_cycles = LifeVal.infinite)) :=
  C7_fatigue_classification ⟨8, 1, 50⟩ 5000 500 1000 10000 SurfaceFinish.machined
    ⟨268515/1000, 100, 10, 537030/73703, LifeVal.infinite, LifeStatus.INFINITE_LIFE, true⟩
    (by norm_num) (by norm_num)
    (by rw [fatigue_analysis]
        norm_num [fatigue_S_e, fatigue_sigma, fatigue_status, fatigue_cycles, safe_flag,
          finish_factor])

/-- Every character of a numeral is untouched by uppercasing, is not
whitespace, is not a space, and is not the separator `X`. -/
theorem numeralChar_spec (c : Char) (h : numeralChar c = true) :
    pyUpperChar c = c ∧ isPySpace c = false ∧ c.toNat ≠ 32 ∧ c ≠ 'X' := by
  simp only [numeralChar, isDigitChar, Bool.or_eq_true, decide_eq_true_eq,
    Bool.and_eq_true] at h
  rcases h with ((⟨h1, h2⟩ | h) | h) | h
  · have hb1 : 48 ≤ c.toNat := by exact_mod_cast h1
    have hb2 : c.toNat ≤ 57 := by exact_mod_cast h2
    refine ⟨?_, ?_, by omega, ?_⟩
    · unfold pyUpperChar
      rw [if_neg (by omega)]
    · unfold isPySpace
      simp only [Bool.or_eq_false_iff, decide_eq_false_iff_not]
      omega
    · intro hX
      rw [hX] at hb2
      exact absurd hb2 (by decide)
  · subst h; exact ⟨by decide, by decide, by decide, by decide⟩
  · subst h; exact ⟨by decide, by decide, by decide, by decide⟩
  · subst h; exact ⟨by decide, by decide, by decide, by decide⟩

/-- A successful unsigned-decimal parse only consumes digits and dots. -/
theorem parseUnsigned_chars {l : List Char} {q : ℚ}
    (h : parseUnsigned l = some q) : ∀ c ∈ l, numeralChar c = true := by
  unfold parseUnsigned at h
  intro c hc
  rw [← List.takeWhile_append_dropWhile (p := isDigitChar) (l := l)] at hc
  rcases List.mem_append.1 hc with hip | hrest
  · have := List.mem_takeWhile_imp hip
    simp [numeralChar, this]
  · rcases hr : l.dropWhile isDigitChar with _ | ⟨r0, rtail⟩
    · rw [hr] at hrest
      cases hrest
    · rw [hr] at h hrest
      unfold parseUnsignedCore at h
      rw [if_neg (by simp)] at h
      by_cases hr0 : r0 = '.'
      · subst hr0
        rw [if_pos (by simp)] at h
        dsimp only [List.tail_cons] at h
        split_ifs at h with hcond
        · rw [Bool.and_eq_true] at hcond
          rcases List.mem_cons.1 hrest with rfl | hc'
          · decide
          · have := List.all_eq_true.1 hcond.1 c (by simpa using hc')
            simp [numeralChar, this]
      · rw [if_neg (by simp [hr0])] at h
        cases h

/-- A successful decimal parse only consumes digits, dots and signs. -/
theorem parseDecimal_chars {l : List Char} {q : ℚ}
    (h : parseDecimal l = some q) : ∀ c ∈ l, numeralChar c = true := by
  cases l with
  | nil => intro c hc; cases hc
  | cons c0 t =>
    unfold parseDecimal at h
    dsimp only at h
    split_ifs at h with hm hp
    · subst hm
      rcases Option.map_eq_some'.1 h with ⟨q', hq', _⟩
      intro c hc
      rcases List.mem_cons.1 hc with rfl | hc
      · decide
      · exact parseUnsigned_chars hq' c hc
    · subst hp
      intro c hc
      rcases List.mem_cons.1 hc with rfl | hc
      · decide
      · exact parseUnsigned_chars h c hc
    · exact parseUnsigned_chars h

/-- `takeWhile` stops exactly at a marked middle element. -/
theorem takeWhile_middle (p : α → Bool) (x : α) (l1 l2 : List α)
    (h1 : ∀ c ∈ l1, p c = true) (hx : p x = false) :
    (l1 ++ x :: l2).takeWhile p = l1 := by
  induction l1 with
  | nil => simp [List.takeWhile_cons, hx]
  | cons a t ih =>
    simp only [List.cons_append, List.takeWhile_cons,
      h1 a (List.mem_cons_self a t), if_true]
    rw [ih (fun c hc => h1 c (List.mem_cons_of_mem a hc))]

/-- `dropWhile` keeps everything from a marked middle element on. -/
theorem dropWhile_middle (p : α → Bool) (x : α) (l1 l2 : List α)
    (h1 : ∀ c ∈ l1, p c = true) (hx : p x = false) :
    (l1 ++ x :: l2).dropWhile p = x :: l2 := by
  induction l1 with
  | nil => simp [List.dropWhile_cons, hx]
  | cons a t ih =>
    simp only [List.cons_append, List.dropWhile_cons,
      h1 a (List.mem_cons_self a t), if_true]
    exact ih (fun c hc => h1 c (List.mem_cons_of_mem a hc))

/-- A pointwise-fixed map is the identity. -/
theorem map_id_of_mem (f : α → α) (l : List α) (h : ∀ c ∈ l, f c = c) :
    l.map f = l := by
  induction l with
  | nil => rfl
  | cons a t ih =>
    rw [List.map_cons, h a (List.mem_cons_self a t),
      ih (fun c hc => h c (List.mem_cons_of_mem a hc))]

/-- Stripping is the identity on whitespace-free text. -/
theorem pyStrip_eq_self (l : List Char) (h : ∀ c ∈ l, isPySpace c = false) :
    pyStrip l = l := by
  unfold pyStrip
  have h1 : l.dropWhile isPySpace = l := by
    cases l with
    | nil => rfl
    | cons a t => simp [List.dropWhile_cons, h a (List.mem_cons_self a t)]
  rw [h1]
  have h2 : l.reverse.dropWhile isPySpace = l.reverse := by
    cases hr : l.reverse with
    | nil => rfl
    | cons a t =>
      have ha : a ∈ l := by
        rw [← List.mem_reverse, hr]
        exact List.mem_cons_self a t
      rw [← hr]
      cases hr' : l.reverse with
      | nil => rfl
      | cons b t' =>
        have hb : b ∈ l := by
          rw [← List.mem_reverse, hr']
          exact List.mem_cons_self b t'
        simp [List.dropWhile_cons, h b hb]
  rw [h2, List.reverse_reverse]

/-- On `M<digits>x<digits>` input the preprocessing only uppercases the
separator. -/
theorem preprocess_numeral (ds ps : List Char)
    (hds : ∀ c ∈ ds, numeralChar c = true) (hps : ∀ c ∈ ps, numeralChar c = true) :
    preprocess ('M' :: ds ++ 'x' :: ps) = 'M' :: ds ++ 'X' :: ps := by
  have hall : ∀ c ∈ ('M' :: ds ++ 'x' :: ps), isPySpace c = false := by
    intro c hc
    rcases List.mem_cons.1 hc with rfl | hc
    · decide
    rcases List.mem_append.1 hc with h | h
    · exact (numeralChar_spec c (hds c h)).2.1
    rcases List.mem_cons.1 h with rfl | h
    · decide
    · exact (numeralChar_spec c (hps c h)).2.1
  unfold preprocess
  rw [pyStrip_eq_self _ hall]
  have hmap : ('M' :: ds ++ 'x' :: ps).map pyUpperChar = 'M' :: ds ++ 'X' :: ps := by
    have h3 : ds.map pyUpperChar = ds :=
      map_id_of_mem _ _ (fun c hc => (numeralChar_spec c (hds c hc)).1)
    have h4 : ps.map pyUpperChar = ps :=
      map_id_of_mem _ _ (fun c hc => (numeralChar_spec c (hps c hc)).1)
    simp only [List.map_cons, List.map_append, h3, h4]
    rw [show pyUpperChar 'M' = 'M' by decide, show pyUpperChar 'x' = 'X' by decide]
  rw [hmap]
  apply List.filter_eq_self.mpr
  intro a ha
  show (a.toNat != 32) = true
  rw [bne_iff_ne]
  rcases List.mem_cons.1 ha with rfl | ha
  · decide
  rcases List.mem_append.1 ha with h | h
  · exact (numeralChar_spec a (hds a h)).2.2.1
  rcases List.mem_cons.1 h with rfl | h
  · decide
  · exact (numeralChar_spec a (hps a h)).2.2.1

/-- C8: for any decimal numerals `ds`/`ps` denoting positive values `D`
and `p` with `p < D/0.9382`, parsing the designation `M{ds}x{ps}` succeeds
and yields the thread record with exactly those `D` and `p` and a strictly
positive tensile stress area `0.7854 (D − 0.9382 p)²`. -/
theorem C8_parse_round_trip (ds ps : List Char) (D p : ℚ)
    (hd : parseDecimal ds = some D) (hp : parseDecimal ps = some p)
    (hD : 0 < D) (hppos : 0 < p) (hlt : p < D / (9382/10000)) :
    parse_metric_thread (String.mk ('M' :: ds ++ 'x' :: ps))
      = some ⟨D, p, tensile_stress_area D p⟩
    ∧ 0 < tensile_stress_area D p := by
  have hds := parseDecimal_chars hd
  have hps := parseDecimal_chars hp
  constructor
  · unfold parse_metric_thread
    rw [show (String.mk ('M' :: ds ++ 'x' :: ps)).data = 'M' :: ds ++ 'x' :: ps
        from rfl]
    rw [preprocess_numeral ds ps hds hps]
    show (parse_after_M (ds ++ 'X' :: ps)).map _ = _
    unfold parse_after_M
    rw [if_pos (List.mem_append_right ds (List.mem_cons_self 'X' ps))]
    rw [takeWhile_middle _ 'X' ds ps
        (fun c hc => decide_eq_true ((numeralChar_spec c (hds c hc)).2.2.2))
        (by decide)]
    rw [dropWhile_middle _ 'X' ds ps
        (fun c hc => decide_eq_true ((numeralChar_spec c (hds c hc)).2.2.2))
        (by decide)]
    rw [show ('X' :: ps).drop 1 = ps from rfl]
    rw [hd, hp]
    rfl
  · have hgt : (9382/10000 : ℚ) * p < D := by
      have := (lt_div_iff (by norm_num : (0:ℚ) < 9382/10000)).1 hlt
      linarith [this]
    have hx : 0 < D - (9382/10000) * p := by linarith
    unfold tensile_stress_area
    exact mul_pos (by norm_num) (pow_pos hx 2)

/-- C8 witness: the designation `M8x1` parses back to `D = 8`, `p = 1`
with positive tensile area. -/
theorem C8_parse_round_trip_witness :
    parse_metric_thread (String.mk ['M', '8', 'x', '1'])
      = some ⟨8, 1, tensile_stress_area 8 1⟩
    ∧ 0 < tensile_stress_area 8 1 :=
  C8_parse_round_trip ['8'] ['1'] 8 1 rfl rfl
    (by norm_num) (by norm_num) (by norm_num)

end ThreadEngagement
